import Mathlib

/-!
Verification of the NAT/PAT proxy (`proxy_server.py`) against its
natural-language specification.

Wire data is modelled as byte lists (`List Nat`); text lines compared by the
proxy are ASCII, embedded via `asciiB`.  Each definition below mirrors one
function of the source:

* `readline`        — `ProxyServer._readline`
* `relayBytes`      — `ProxyServer._relay_bytes`
* `relayUntilEnd`   — `ProxyServer._relay_until_end`
* `forwardResponse` — `ProxyServer._forward_response`
* `registerNat`, `removeNat`, `removeNatByClient`, `getNatEntry`,
  `sendRawViaNat`, `sendLineViaNat`, `sendErrViaNat` — the NAT-table layer
* `cmdTrace` / `sessionBody` — the event trace of `ProxyServer.handle_client`

Loops whose variant is not structural (`_relay_bytes`, `_relay_until_end`)
are embedded with an explicit fuel argument that provably suffices, keeping
every definition executable.
-/

namespace Proxy

/-- Bytes of an ASCII string literal. -/
def asciiB (s : String) : List Nat := s.data.map Char.toNat

/-- ASCII whitespace, as recognised by Python `str.strip`/`str.split`. -/
def isWS (b : Nat) : Bool := b = 32 || b = 9 || b = 10 || b = 13 || b = 11 || b = 12

/-- Python `str.strip()` on bytes: drop leading and trailing whitespace. -/
def stripB (l : List Nat) : List Nat :=
  ((l.dropWhile isWS).reverse.dropWhile isWS).reverse

/-- Python `str.upper()` restricted to ASCII letters. -/
def upperB (l : List Nat) : List Nat :=
  l.map (fun b => if 97 ≤ b ∧ b ≤ 122 then b - 32 else b)

/-- `_send_line_via_nat` framing: append a newline byte unless one is already
trailing (Python `line.endswith("\n")`; false on the empty string). -/
def sendLineBytes (l : List Nat) : List Nat :=
  if l.getLast? = some 10 then l else l ++ [10]

/-- Payload of `_send_err_via_nat`: the message behind an `ERR ` tag. -/
def errB (msg : List Nat) : List Nat := asciiB "ERR " ++ msg

/-- Loop body of `_readline`: `buffer` is the accumulator, the list argument
is the unread byte stream (EOF = exhausted). -/
def readlineAux (buffer : List Nat) : List Nat → Option (List Nat) × List Nat
  | [] => (if buffer = [] then none else some buffer, [])
  | b :: rest => if b = 10 then (some buffer, rest) else readlineAux (buffer ++ [b]) rest

/-- `ProxyServer._readline`: returns the line read (`none` on immediate EOF)
together with the unconsumed remainder of the stream. -/
def readline (s : List Nat) : Option (List Nat) × List Nat := readlineAux [] s

/-- ASCII decimal digit. -/
def isDigit (b : Nat) : Bool := 48 ≤ b && b ≤ 57

/-- Tail of Python's integer-literal grammar: `(_? digit)*`, underscores only
between digits. -/
def pyTail : List Nat → Bool
  | [] => true
  | [95] => false
  | 95 :: c :: rest => isDigit c && pyTail rest
  | c :: rest => isDigit c && pyTail rest

/-- Python's integer-literal digit part: `digit (_? digit)*`. -/
def pyDigits : List Nat → Bool
  | [] => false
  | b :: rest => isDigit b && pyTail rest

/-- Decimal value of a digit string, skipping underscores. -/
def digitsVal (l : List Nat) : Nat :=
  l.foldl (fun a b => if b = 95 then a else a * 10 + (b - 48)) 0

/-- Python `int(str)` on ASCII bytes: optional surrounding whitespace,
optional sign, then a digit group; `none` when parsing fails (ValueError). -/
def pyInt (l : List Nat) : Option Int :=
  match stripB l with
  | 43 :: rest => if pyDigits rest then some (Int.ofNat (digitsVal rest)) else none
  | 45 :: rest => if pyDigits rest then some (-(Int.ofNat (digitsVal rest))) else none
  | rest => if pyDigits rest then some (Int.ofNat (digitsVal rest)) else none

/-- Python `s.split(maxsplit=1)`. -/
def pySplit1 (s : List Nat) : List (List Nat) :=
  let s1 := s.dropWhile isWS
  if s1 = [] then []
  else
    let tok := s1.takeWhile (fun b => !(isWS b))
    let rest := (s1.dropWhile (fun b => !(isWS b))).dropWhile isWS
    if rest = [] then [tok] else [tok, rest]

/-- The size extraction of `_forward_response`:
`_, size_str = response_line.split(maxsplit=1); remaining = int(size_str)`,
`none` when either the unpacking or `int` raises ValueError. -/
def parseSize (respLine : List Nat) : Option Int :=
  match pySplit1 respLine with
  | [_, sz] => pyInt sz
  | _ => none

/-- Loop of `_relay_bytes` with explicit fuel (each iteration consumes at
least one of `remaining`, so `fuel = remaining` reproduces the loop exactly).
Returns the chunks sent to the client via the NAT table. -/
def relayBytesF : Nat → List Nat → Nat → List (List Nat)
  | 0, _, _ => []
  | fuel + 1, s, remaining =>
    if remaining = 0 then []
    else
      let chunk := s.take (min 4096 remaining)
      if chunk = [] then []
      else chunk :: relayBytesF fuel (s.drop (min 4096 remaining)) (remaining - chunk.length)

/-- `ProxyServer._relay_bytes`: chunks relayed for a `DOWNLOAD` payload of
`remaining` bytes read from backend stream `s`. -/
def relayBytes (s : List Nat) (remaining : Nat) : List (List Nat) :=
  relayBytesF remaining s remaining

/-- Loop of `_relay_until_end` with explicit fuel (`readline` consumes at
least one byte whenever it yields a line, so `fuel = s.length + 1` suffices).
Returns the lines relayed, in order. -/
def relayUntilEndF : Nat → List Nat → List (List Nat)
  | 0, _ => []
  | fuel + 1, s =>
    match readline s with
    | (none, _) => []
    | (some line, rest) =>
      if line = asciiB "END" then [line] else line :: relayUntilEndF fuel rest

/-- `ProxyServer._relay_until_end`: lines relayed for a `LIST` response. -/
def relayUntilEnd (s : List Nat) : List (List Nat) :=
  relayUntilEndF (s.length + 1) s

/-- All lines of a byte stream, as produced by repeated `readline` (fuel
version). -/
def linesOfF : Nat → List Nat → List (List Nat)
  | 0, _ => []
  | fuel + 1, s =>
    match readline s with
    | (none, _) => []
    | (some line, rest) => line :: linesOfF fuel rest

/-- All lines of a byte stream, as produced by repeated `readline`. -/
def linesOf (s : List Nat) : List (List Nat) :=
  linesOfF (s.length + 1) s

/-- The elements of a list up to and including the first one equal to
`target`; the whole list if `target` never occurs. -/
def takeThroughEnd (target : List Nat) : List (List Nat) → List (List Nat)
  | [] => []
  | l :: rest => if l = target then [l] else l :: takeThroughEnd target rest

/-- First whitespace-delimited token of a byte string (Python
`s.split()[0]`, empty when the string is all whitespace). -/
def firstToken (l : List Nat) : List Nat :=
  (l.dropWhile isWS).takeWhile (fun b => !(isWS b))

/-- `ProxyServer._forward_response`: the list of payloads sent to the client
through the NAT table, given the backend's response stream and the request
line that was forwarded (`request_line` in the source). -/
def forwardResponse (stream requestLine : List Nat) : List (List Nat) :=
  match readline stream with
  | (none, _) => [sendLineBytes (errB (asciiB "empty response from server"))]
  | (some respLine, rest) =>
    if respLine = [] then
      [sendLineBytes (errB (asciiB "empty response from server"))]
    else
      sendLineBytes respLine ::
        (if (asciiB "OK ").isPrefixOf respLine
            && (asciiB "DOWNLOAD").isPrefixOf (upperB (stripB requestLine)) then
          match parseSize respLine with
          | none => [sendLineBytes (errB (asciiB "invalid size from server"))]
          | some r => relayBytes rest r.toNat
        else if respLine == asciiB "OK" && upperB (stripB requestLine) == asciiB "LIST" then
          (relayUntilEnd rest).map sendLineBytes
        else [])

/-- The `NATEntry` dataclass: the client's connection handle (modelled by an
opaque numeric identifier), host and port. -/
structure NATEntry where
  client_conn : Nat
  client_addr : String
  client_port : Nat
deriving DecidableEq

/-- The `nat_table` dict: a partial map from ephemeral upstream port to
`NATEntry`.  The `nat_lock` serialises every operation in the source, so each
operation is modelled as an atomic function on the whole table. -/
def NatTable : Type := Nat → Option NATEntry

/-- The table with no entries. -/
def emptyNat : NatTable := fun _ => none

/-- `ProxyServer._register_nat`:
`nat_table[port] = NATEntry(client_conn, client_addr[0], client_addr[1])`. -/
def registerNat (t : NatTable) (port : Nat) (conn : Nat) (addr : String × Nat) : NatTable :=
  fun q => if q = port then some ⟨conn, addr.1, addr.2⟩ else t q

/-- `ProxyServer._remove_nat`: `nat_table.pop(port, None)`. -/
def removeNat (t : NatTable) (port : Nat) : NatTable :=
  fun q => if q = port then none else t q

/-- `ProxyServer._remove_nat_by_client`: delete every entry whose stored
`(client_addr, client_port)` equals the given address. -/
def removeNatByClient (t : NatTable) (addr : String × Nat) : NatTable :=
  fun q =>
    match t q with
    | some e => if e.client_addr = addr.1 ∧ e.client_port = addr.2 then none else some e
    | none => none

/-- `ProxyServer._get_nat_entry`: `nat_table.get(port)`. -/
def getNatEntry (t : NatTable) (port : Nat) : Option NATEntry := t port

/-- `ProxyServer._send_raw_via_nat`: look the port up at send time; if the
entry is absent, silently do nothing (`return`); otherwise the payload goes
to the looked-up client connection.  The result records the delivery:
`none` = dropped, `some (conn, payload)` = bytes sent to that connection. -/
def sendRawViaNat (t : NatTable) (port : Nat) (payload : List Nat) : Option (Nat × List Nat) :=
  match getNatEntry t port with
  | none => none
  | some e => some (e.client_conn, payload)

/-- `ProxyServer._send_line_via_nat`. -/
def sendLineViaNat (t : NatTable) (port : Nat) (line : List Nat) : Option (Nat × List Nat) :=
  sendRawViaNat t port (sendLineBytes line)

/-- `ProxyServer._send_err_via_nat`. -/
def sendErrViaNat (t : NatTable) (port : Nat) (msg : List Nat) : Option (Nat × List Nat) :=
  sendLineViaNat t port (errB msg)

/-- Observable actions of one client session of `handle_client`, in program
order.  `natSend` is a send routed through a NAT-table lookup of the port;
`directSend` is `client_conn.sendall` (used only when no port was dialed). -/
inductive Event where
  | natRegister (port : Nat) (conn : Nat) (host : String) (cport : Nat)
  | toBackend (bytes : List Nat)
  | natSend (port : Nat) (payload : List Nat)
  | directSend (conn : Nat) (payload : List Nat)
  | natRemove (port : Nat)
  | natRemoveByClient (host : String) (cport : Nat)
deriving DecidableEq

/-- How one command's `try` block resolves: the dial to the backend fails
with an exception message; or the dial succeeds (yielding the ephemeral
`port` and the backend's response `stream`) and the relay completes; or the
dial succeeds but an exception interrupts the block after `k` of its actions,
with message `msg`. -/
inductive Outcome where
  | dialFail (msg : List Nat)
  | relayOk (port : Nat) (stream : List Nat)
  | relayFault (port : Nat) (stream : List Nat) (k : Nat) (msg : List Nat)

/-- `outbound = request_line if request_line.endswith("\n") else request_line + "\n"`. -/
def outboundOf (req : List Nat) : List Nat :=
  if req.getLast? = some 10 then req else req ++ [10]

/-- The actions of a successful `try` block body, in source order: register
the NAT entry, send the command to the backend, then every send of
`_forward_response` routed through the NAT table. -/
def okBody (conn : Nat) (addr : String × Nat) (rl : List Nat) (port : Nat)
    (stream : List Nat) : List Event :=
  Event.natRegister port conn addr.1 addr.2 ::
  Event.toBackend (outboundOf rl) ::
  (forwardResponse stream (outboundOf rl)).map (Event.natSend port)

/-- Trace of one iteration of the `handle_client` loop on the raw line
`raw` read from the client: blank (after strip) lines are skipped; a dial
failure sends `ERR proxy error: ...` directly on the client connection
(`nat_port` is still `None`); otherwise the `try` body runs (fully, or up to
`k` actions followed by the `except` branch's NAT-routed `ERR`) and the
`finally` branch removes the NAT entry. -/
def cmdTrace (conn : Nat) (addr : String × Nat) (raw : List Nat) (oc : Outcome) : List Event :=
  let rl := stripB raw
  if rl = [] then []
  else
    match oc with
    | .dialFail msg =>
      [Event.directSend conn (errB (asciiB "proxy error: " ++ msg) ++ [10])]
    | .relayOk port stream =>
      okBody conn addr rl port stream ++ [Event.natRemove port]
    | .relayFault port stream k msg =>
      (okBody conn addr rl port stream).take k ++
        [Event.natSend port (sendLineBytes (errB (asciiB "proxy error: " ++ msg))),
         Event.natRemove port]

/-- Trace of the `while` loop of `handle_client` over the lines the client
sends before EOF, each paired with how its command resolved. -/
def sessionBody (conn : Nat) (addr : String × Nat) :
    List (List Nat × Outcome) → List Event
  | [] => []
  | st :: rest => cmdTrace conn addr st.1 st.2 ++ sessionBody conn addr rest

/-- Full trace of `handle_client`: the command loop, then the unconditional
`_remove_nat_by_client` sweep after client EOF. -/
def sessionTrace (conn : Nat) (addr : String × Nat)
    (steps : List (List Nat × Outcome)) : List Event :=
  sessionBody conn addr steps ++ [Event.natRemoveByClient addr.1 addr.2]

/-- Closed form of the `_readline` loop: with accumulated `buffer`, the
result splits the stream at the first newline; at EOF the partial buffer is
returned unless nothing was ever read. -/
theorem readlineAux_eq (s : List Nat) : ∀ buffer : List Nat,
    readlineAux buffer s =
      if 10 ∈ s then
        (some (buffer ++ s.takeWhile (fun b => b ≠ 10)), (s.dropWhile (fun b => b ≠ 10)).tail)
      else if buffer = [] ∧ s = [] then (none, [])
      else (some (buffer ++ s), []) := by
  induction s with
  | nil =>
    intro buffer
    by_cases hb : buffer = [] <;> simp [readlineAux, hb]
  | cons b rest ih =>
    intro buffer
    by_cases hb : b = 10
    · subst hb
      simp [readlineAux, List.takeWhile_cons, List.dropWhile_cons]
    · rw [readlineAux, if_neg hb, ih]
      by_cases hm : (10 : Nat) ∈ rest
      · simp [hm, hb, Ne.symm hb, List.takeWhile_cons, List.dropWhile_cons]
      · simp [hm, hb, Ne.symm hb]

/-- `readline` consumes at least one byte whenever it yields a line. -/
theorem readline_some_lt (s line rest : List Nat)
    (h : readline s = (some line, rest)) : rest.length < s.length := by
  rw [readline, readlineAux_eq] at h
  by_cases hm : (10 : Nat) ∈ s
  · rw [if_pos hm, Prod.mk.injEq] at h
    obtain ⟨-, h2⟩ := h
    have hd : s.dropWhile (fun b => b ≠ 10) ≠ [] := by
      intro hnil
      have h3 := List.dropWhile_eq_nil_iff.mp hnil 10 hm
      simp at h3
    have h4 : (s.dropWhile (fun b => b ≠ 10)).length ≤ s.length :=
      (List.dropWhile_sublist _).length_le
    have h5 : ((s.dropWhile (fun b => b ≠ 10)).tail).length
        < (s.dropWhile (fun b => b ≠ 10)).length := by
      cases hdw : s.dropWhile (fun b => b ≠ 10) with
      | nil => exact absurd hdw hd
      | cons a t => simp
    rw [← h2]
    omega
  · rw [if_neg hm] at h
    by_cases hs : s = []
    · subst hs
      simp at h
    · rw [if_neg (by simp [hs]), Prod.mk.injEq] at h
      obtain ⟨-, h2⟩ := h
      rw [← h2]
      simpa using List.length_pos.mpr hs

/-- The `_relay_until_end` loop relays exactly the stream's lines up to and
including the first `END` (fuel version, with adequate fuel). -/
theorem relayUntilEndF_eq (fuel : Nat) : ∀ s : List Nat, s.length < fuel →
    relayUntilEndF fuel s = takeThroughEnd (asciiB "END") (linesOfF fuel s) := by
  induction fuel with
  | zero => intro s h; omega
  | succ fuel ih =>
    intro s h
    rcases hr : readline s with ⟨o, rest⟩
    cases o with
    | none => simp [relayUntilEndF, linesOfF, hr, takeThroughEnd]
    | some line =>
      have hlt : rest.length < s.length := readline_some_lt s line rest hr
      by_cases he : line = asciiB "END"
      · simp [relayUntilEndF, linesOfF, hr, takeThroughEnd, he]
      · simp only [relayUntilEndF, linesOfF, hr, takeThroughEnd, if_neg he]
        exact congrArg (line :: ·) (ih rest (by omega))

/-- With adequate fuel, `relayUntilEnd` equals `takeThroughEnd` over the
stream's lines. -/
theorem relayUntilEnd_eq (s : List Nat) :
    relayUntilEnd s = takeThroughEnd (asciiB "END") (linesOf s) :=
  relayUntilEndF_eq (s.length + 1) s (by omega)

/-- When the sentinel never occurs, `takeThroughEnd` is the identity. -/
theorem takeThroughEnd_of_not_mem (target : List Nat) :
    ∀ l : List (List Nat), target ∉ l → takeThroughEnd target l = l := by
  intro l
  induction l with
  | nil => intro _; rfl
  | cons a t ih =>
    intro h
    rw [takeThroughEnd, if_neg (by rintro rfl; exact h (List.mem_cons_self a t))]
    rw [ih (fun hm => h (List.mem_cons_of_mem a hm))]

/-- The bytes relayed by the `_relay_bytes` loop are exactly the first
`remaining` bytes the backend supplies (fuel version, adequate fuel). -/
theorem relayBytesF_flatten (fuel : Nat) : ∀ (s : List Nat) (r : Nat), r ≤ fuel →
    (relayBytesF fuel s r).flatten = s.take r := by
  induction fuel with
  | zero =>
    intro s r h
    have : r = 0 := by omega
    subst this
    simp [relayBytesF]
  | succ fuel ih =>
    intro s r h
    by_cases hr : r = 0
    · simp [relayBytesF, hr]
    · have hk1 : 1 ≤ min 4096 r := by omega
      have hkr : min 4096 r ≤ r := Nat.min_le_right _ _
      by_cases hc : s.take (min 4096 r) = []
      · rcases List.take_eq_nil_iff.mp hc with h' | h'
        · omega
        · subst h'
          simp [relayBytesF, hr]
      · have hsne : s ≠ [] := by
          intro h'
          subst h'
          simp at hc
        have hslen : 1 ≤ s.length := List.length_pos.mpr hsne
        simp only [relayBytesF, if_neg hr, if_neg hc, List.flatten_cons]
        rcases Nat.lt_or_ge s.length (min 4096 r) with hks | hks
        · have h1 : s.take (min 4096 r) = s := List.take_of_length_le (by omega)
          have h2 : s.drop (min 4096 r) = [] := List.drop_eq_nil_of_le (by omega)
          rw [h1, h2, ih _ _ (by omega), List.take_nil,
            List.take_of_length_le (by omega)]
          simp
        · have hck : (s.take (min 4096 r)).length = min 4096 r := by
            rw [List.length_take]
            omega
          rw [hck, ih _ _ (by omega)]
          conv_rhs => rw [show r = min 4096 r + (r - min 4096 r) by omega]
          rw [List.take_add]

/-- Every chunk of the `_relay_bytes` loop is at most 4096 bytes. -/
theorem relayBytesF_chunk_le (fuel : Nat) : ∀ (s : List Nat) (r : Nat)
    (c : List Nat), c ∈ relayBytesF fuel s r → c.length ≤ 4096 := by
  induction fuel with
  | zero => intro s r c hc; simp [relayBytesF] at hc
  | succ fuel ih =>
    intro s r c hc
    by_cases hr : r = 0
    · simp [relayBytesF, hr] at hc
    · by_cases htk : s.take (min 4096 r) = []
      · simp [relayBytesF, hr, htk] at hc
      · simp only [relayBytesF, if_neg hr, if_neg htk, List.mem_cons] at hc
        rcases hc with rfl | hc
        · rw [List.length_take]
          omega
        · exact ih _ _ _ hc

/-- `sessionBody` distributes over concatenation of command sequences. -/
theorem sessionBody_append (conn : Nat) (addr : String × Nat) :
    ∀ a b : List (List Nat × Outcome),
      sessionBody conn addr (a ++ b) = sessionBody conn addr a ++ sessionBody conn addr b := by
  intro a b
  induction a with
  | nil => simp [sessionBody]
  | cons st rest ih => simp [sessionBody, ih]

/-- Header-present evaluation of `_forward_response`: a non-empty header line
is relayed first, then the branch on (header shape, request verb) decides the
payload relays. -/
theorem forwardResponse_some (stream req respLine rest : List Nat)
    (h : readline stream = (some respLine, rest)) (hne : respLine ≠ []) :
    forwardResponse stream req =
      sendLineBytes respLine ::
        (if (asciiB "OK ").isPrefixOf respLine
            && (asciiB "DOWNLOAD").isPrefixOf (upperB (stripB req)) then
          match parseSize respLine with
          | none => [sendLineBytes (errB (asciiB "invalid size from server"))]
          | some r => relayBytes rest r.toNat
        else if respLine == asciiB "OK" && upperB (stripB req) == asciiB "LIST" then
          (relayUntilEnd rest).map sendLineBytes
        else []) := by
  unfold forwardResponse
  rw [h]
  simp [hne]

/-- The last element of a list followed by two fixed elements is the second
of the pair. -/
theorem getLast?_pair {α : Type} (l : List α) (a b : α) :
    (l ++ [a, b]).getLast? = some b := by
  rw [show l ++ [a, b] = (l ++ [a]) ++ [b] by simp]
  exact List.getLast?_concat _

/-- C2: `_readline` returns the distinguished EOF result (`none`) iff the
connection closes before any byte is read; a nonempty stream closed before
any newline yields the partial buffer read so far; otherwise the bytes up to
the first newline are returned with the newline stripped. -/
theorem readline_spec (s : List Nat) :
    ((readline s).1 = none ↔ s = [])
    ∧ (s ≠ [] → (10 : Nat) ∉ s → readline s = (some s, []))
    ∧ ((10 : Nat) ∈ s → (readline s).1 = some (s.takeWhile (fun b => b ≠ 10))) := by
  refine ⟨⟨?_, ?_⟩, ?_, ?_⟩
  · intro h
    by_contra hs
    rw [readline, readlineAux_eq] at h
    by_cases hm : (10 : Nat) ∈ s
    · rw [if_pos hm] at h
      simp at h
    · rw [if_neg hm, if_neg (by simp [hs])] at h
      simp at h
  · intro h
    subst h
    rfl
  · intro hs hm
    rw [readline, readlineAux_eq, if_neg hm, if_neg (by simp [hs])]
    simp
  · intro hm
    rw [readline, readlineAux_eq, if_pos hm]
    simp

/-- Witness for C2 at concrete streams. -/
theorem readline_spec_witness :
    readline (asciiB "AB") = (some (asciiB "AB"), [])
    ∧ (readline (asciiB "A\nB")).1 = some (asciiB "A") := by
  constructor
  · exact (readline_spec (asciiB "AB")).2.1 (by decide) (by decide)
  · rw [(readline_spec (asciiB "A\nB")).2.2 (by decide)]
    decide

/-- C7: immediately after `_register_nat`, `_get_nat_entry` on that port
returns the just-registered entry, whatever was there before (last writer
wins, no precondition); immediately after `_remove_nat`, or after a
`_remove_nat_by_client` sweep matching the entry's stored address, the
lookup returns `none`. -/
theorem nat_register_lookup (t : NatTable) (port conn : Nat) (host : String)
    (cport : Nat) (a : String × Nat) (e : NATEntry) :
    getNatEntry (registerNat t port conn (host, cport)) port
        = some ⟨conn, host, cport⟩
    ∧ getNatEntry (removeNat t port) port = none
    ∧ (getNatEntry t port = some e → e.client_addr = a.1 → e.client_port = a.2 →
        getNatEntry (removeNatByClient t a) port = none) := by
  refine ⟨?_, ?_, ?_⟩
  · simp [getNatEntry, registerNat]
  · simp [getNatEntry, removeNat]
  · intro h h1 h2
    simp only [getNatEntry, removeNatByClient] at *
    rw [h]
    simp [h1, h2]

/-- Witness for C7 at a concrete table. -/
theorem nat_register_lookup_witness :
    getNatEntry (registerNat emptyNat 5 7 ("h", 9)) 5 = some ⟨7, "h", 9⟩
    ∧ getNatEntry (removeNatByClient (registerNat emptyNat 5 7 ("h", 9)) ("h", 9)) 5
        = none := by
  constructor
  · exact (nat_register_lookup emptyNat 5 7 "h" 9 ("h", 9) ⟨7, "h", 9⟩).1
  · exact (nat_register_lookup (registerNat emptyNat 5 7 ("h", 9)) 5 7 "h" 9 ("h", 9)
      ⟨7, "h", 9⟩).2.2 rfl rfl rfl

/-- C8: `_remove_nat` twice in a row leaves the very same table as once (the
second call is a no-op), and `_remove_nat_by_client` for an address with no
matching entries leaves the table unchanged. -/
theorem nat_remove_idem (t : NatTable) (port : Nat) (a : String × Nat) :
    removeNat (removeNat t port) port = removeNat t port
    ∧ ((∀ p e, t p = some e → ¬(e.client_addr = a.1 ∧ e.client_port = a.2)) →
        removeNatByClient t a = t) := by
  constructor
  · funext q
    by_cases hq : q = port <;> simp [removeNat, hq]
  · intro h
    funext q
    cases hq : t q with
    | none => simp [removeNatByClient, hq]
    | some e => simp [removeNatByClient, hq, h q e hq]

/-- Witness for C8 at a concrete table. -/
theorem nat_remove_idem_witness :
    removeNat (removeNat emptyNat 3) 3 = removeNat emptyNat 3
    ∧ removeNatByClient emptyNat ("h", 1) = emptyNat := by
  refine ⟨(nat_remove_idem emptyNat 3 ("h", 1)).1,
    (nat_remove_idem emptyNat 3 ("h", 1)).2 ?_⟩
  intro p e h
  simp [emptyNat] at h

/-- C10: every relayed line, raw chunk and ERR message goes through a fresh
NAT-table lookup of the dial port at send time; when the entry is absent the
send is a silent no-op (nothing delivered, no error), and when it is present
the payload goes to the looked-up client connection. -/
theorem nat_send_fresh_lookup (t : NatTable) (port : Nat)
    (payload line msg : List Nat) :
    (getNatEntry t port = none →
      sendRawViaNat t port payload = none
      ∧ sendLineViaNat t port line = none
      ∧ sendErrViaNat t port msg = none)
    ∧ (∀ e, getNatEntry t port = some e →
      sendRawViaNat t port payload = some (e.client_conn, payload)
      ∧ sendLineViaNat t port line = some (e.client_conn, sendLineBytes line)
      ∧ sendErrViaNat t port msg = some (e.client_conn, sendLineBytes (errB msg))) := by
  constructor
  · intro h
    refine ⟨?_, ?_, ?_⟩ <;> simp [sendRawViaNat, sendLineViaNat, sendErrViaNat, h]
  · intro e h
    refine ⟨?_, ?_, ?_⟩ <;> simp [sendRawViaNat, sendLineViaNat, sendErrViaNat, h]

/-- Witness for C10 at a concrete table: absent port drops, present port
delivers. -/
theorem nat_send_fresh_lookup_witness :
    sendRawViaNat emptyNat 4 [1, 2] = none
    ∧ sendRawViaNat (registerNat emptyNat 4 9 ("h", 2)) 4 [1, 2] = some (9, [1, 2]) := by
  constructor
  · exact ((nat_send_fresh_lookup emptyNat 4 [1, 2] [] []).1 rfl).1
  · exact ((nat_send_fresh_lookup (registerNat emptyNat 4 9 ("h", 2)) 4 [1, 2] [] []).2
      ⟨9, "h", 2⟩ rfl).1

/-- C3: for a DOWNLOAD exchange whose backend header parses as `OK <n>` with
`n ≥ 0`, the proxy relays the header line then exactly the chunks of
`_relay_bytes`; those chunks concatenate to the first `n` bytes the backend
supplies (all of them, silently, if the backend closes early), each chunk is
at most 4096 bytes, and when the backend supplies at least `n` bytes the
client receives exactly `n` payload bytes. -/
theorem download_relay (stream req hdr rest : List Nat) (n : Int)
    (hread : readline stream = (some hdr, rest))
    (hok : (asciiB "OK ").isPrefixOf hdr = true)
    (hverb : (asciiB "DOWNLOAD").isPrefixOf (upperB (stripB req)) = true)
    (hsize : parseSize hdr = some n)
    (hn : 0 ≤ n) :
    forwardResponse stream req = sendLineBytes hdr :: relayBytes rest n.toNat
    ∧ (relayBytes rest n.toNat).flatten = rest.take n.toNat
    ∧ (∀ c ∈ relayBytes rest n.toNat, c.length ≤ 4096)
    ∧ (n.toNat ≤ rest.length →
        ((relayBytes rest n.toNat).flatten).length = n.toNat) := by
  have hne : hdr ≠ [] := by
    intro h
    subst h
    revert hok
    decide
  refine ⟨?_, ?_, ?_, ?_⟩
  · rw [forwardResponse_some stream req hdr rest hread hne,
      if_pos (by rw [hok, hverb]; rfl), hsize]
  · exact relayBytesF_flatten n.toNat rest n.toNat (le_refl _)
  · intro c hc
    exact relayBytesF_chunk_le n.toNat rest n.toNat c hc
  · intro hle
    rw [relayBytes, relayBytesF_flatten _ _ _ (le_refl _), List.length_take]
    omega

/-- Witness for C3 at a concrete exchange (`OK 3`, backend supplies 5 bytes). -/
theorem download_relay_witness :
    forwardResponse (asciiB "OK 3\nABCDE") (asciiB "DOWNLOAD f\n")
      = [asciiB "OK 3\n", asciiB "ABC"]
    ∧ (relayBytes (asciiB "ABCDE") 3).flatten = asciiB "ABC" := by
  have h := download_relay (asciiB "OK 3\nABCDE") (asciiB "DOWNLOAD f\n")
    (asciiB "OK 3") (asciiB "ABCDE") 3 (by decide) (by decide) (by decide)
    (by decide) (by decide)
  constructor
  · rw [h.1]
    decide
  · rw [show ((3 : Int).toNat) = 3 from rfl] at h
    rw [h.2.1]
    decide

/-- C4: for a DOWNLOAD exchange whose backend header begins with `OK ` but
whose count field fails to parse, the proxy delivers the header and then an
`ERR` line through the NAT table, and relays no payload chunk. -/
theorem download_bad_size (stream req hdr rest : List Nat)
    (hread : readline stream = (some hdr, rest))
    (hok : (asciiB "OK ").isPrefixOf hdr = true)
    (hverb : (asciiB "DOWNLOAD").isPrefixOf (upperB (stripB req)) = true)
    (hsize : parseSize hdr = none) :
    forwardResponse stream req
      = [sendLineBytes hdr, sendLineBytes (errB (asciiB "invalid size from server"))] := by
  have hne : hdr ≠ [] := by
    intro h
    subst h
    revert hok
    decide
  rw [forwardResponse_some stream req hdr rest hread hne,
    if_pos (by rw [hok, hverb]; rfl), hsize]

/-- Witness for C4 at a concrete malformed header. -/
theorem download_bad_size_witness :
    forwardResponse (asciiB "OK x\nABC") (asciiB "DOWNLOAD f\n")
      = [sendLineBytes (asciiB "OK x"),
         sendLineBytes (errB (asciiB "invalid size from server"))] :=
  download_bad_size (asciiB "OK x\nABC") (asciiB "DOWNLOAD f\n") (asciiB "OK x")
    (asciiB "ABC") (by decide) (by decide) (by decide) (by decide)

/-- C9: a non-empty backend header that triggers neither the DOWNLOAD branch
nor the LIST branch (`ERR ...` lines included) is relayed as-is with no
further payload; an empty or EOF header instead yields the synthesized line
`ERR empty response from server` through the NAT table. -/
theorem other_header_relay (stream req hdr rest : List Nat) :
    (readline stream = (some hdr, rest) → hdr ≠ [] →
      ¬((asciiB "OK ").isPrefixOf hdr = true
          ∧ (asciiB "DOWNLOAD").isPrefixOf (upperB (stripB req)) = true) →
      ¬(hdr = asciiB "OK" ∧ upperB (stripB req) = asciiB "LIST") →
      forwardResponse stream req = [sendLineBytes hdr])
    ∧ ((readline stream).1 = none ∨ (readline stream).1 = some [] →
      forwardResponse stream req
        = [sendLineBytes (errB (asciiB "empty response from server"))]) := by
  constructor
  · intro hread hne hnd hnl
    rw [forwardResponse_some stream req hdr rest hread hne,
      if_neg (by rw [Bool.and_eq_true]; exact hnd),
      if_neg (by simp only [Bool.and_eq_true, beq_iff_eq]; exact hnl)]
  · intro h
    rcases hr : readline stream with ⟨o, r2⟩
    cases o with
    | none =>
      unfold forwardResponse
      rw [hr]
    | some l =>
      have hl : l = [] := by
        rw [hr] at h
        simpa using h
      subst hl
      unfold forwardResponse
      rw [hr]
      rfl

/-- Witness for C9: an `ERR` header passes through untouched; an EOF header
yields the synthesized `ERR`. -/
theorem other_header_relay_witness :
    forwardResponse (asciiB "ERR nope\nmore") (asciiB "LIST\n")
      = [sendLineBytes (asciiB "ERR nope")]
    ∧ forwardResponse [] (asciiB "LIST\n")
      = [sendLineBytes (errB (asciiB "empty response from server"))] := by
  constructor
  · exact (other_header_relay (asciiB "ERR nope\nmore") (asciiB "LIST\n")
      (asciiB "ERR nope") (asciiB "more")).1 (by decide) (by decide) (by decide)
      (by decide)
  · exact (other_header_relay [] (asciiB "LIST\n") [] []).2 (by decide)

/-- C1 counterexample: the request line `LIST X` has first
whitespace-delimited token `LIST` (case-insensitively) and the backend
header is exactly `OK`, yet `_forward_response` relays only the header: no
subsequent backend line, and in particular no `END`, is ever relayed,
because the source gates the LIST relay on the whole stripped request line
equalling `LIST` rather than on its first token. -/
theorem list_first_token_counterexample :
    upperB (firstToken (asciiB "LIST X")) = asciiB "LIST"
    ∧ readline (asciiB "OK\na.txt\nEND\n")
        = (some (asciiB "OK"), asciiB "a.txt\nEND\n")
    ∧ forwardResponse (asciiB "OK\na.txt\nEND\n") (asciiB "LIST X\n")
        = [sendLineBytes (asciiB "OK")]
    ∧ sendLineBytes (asciiB "END")
        ∉ forwardResponse (asciiB "OK\na.txt\nEND\n") (asciiB "LIST X\n") := by
  decide

/-- C1 (amended): for every request line which, after stripping, equals
`LIST` case-insensitively (the source's gate), when the backend header is
exactly `OK` the proxy relays the header and then relays the backend's
subsequent lines verbatim through the NAT table up to and including the
first `END`; when the backend stream ends before an `END` line, every line
is relayed and the loop ends without any error being synthesized. -/
theorem list_relay (stream req rest : List Nat)
    (hverb : upperB (stripB req) = asciiB "LIST")
    (hread : readline stream = (some (asciiB "OK"), rest)) :
    forwardResponse stream req
      = sendLineBytes (asciiB "OK")
          :: (takeThroughEnd (asciiB "END") (linesOf rest)).map sendLineBytes
    ∧ (asciiB "END" ∉ linesOf rest →
        forwardResponse stream req
          = sendLineBytes (asciiB "OK") :: (linesOf rest).map sendLineBytes) := by
  have h1 : forwardResponse stream req
      = sendLineBytes (asciiB "OK") :: (relayUntilEnd rest).map sendLineBytes := by
    rw [forwardResponse_some stream req (asciiB "OK") rest hread (by decide),
      if_neg (by rw [Bool.and_eq_true]; rintro ⟨hp, -⟩; revert hp; decide),
      if_pos (by rw [hverb]; rfl)]
  constructor
  · rw [h1, relayUntilEnd_eq]
  · intro hnm
    rw [h1, relayUntilEnd_eq, takeThroughEnd_of_not_mem _ _ hnm]

/-- Witness for C1 (amended): a complete LIST response, and one where the
backend closes before `END`. -/
theorem list_relay_witness :
    forwardResponse (asciiB "OK\na.txt\nEND\ntail") (asciiB "LIST\n")
      = [sendLineBytes (asciiB "OK"), sendLineBytes (asciiB "a.txt"),
         sendLineBytes (asciiB "END")]
    ∧ forwardResponse (asciiB "OK\nb.txt") (asciiB "LIST\n")
      = [sendLineBytes (asciiB "OK"), sendLineBytes (asciiB "b.txt")] := by
  constructor
  · rw [(list_relay (asciiB "OK\na.txt\nEND\ntail") (asciiB "LIST\n")
      (asciiB "a.txt\nEND\ntail") (by decide) (by decide)).1]
    decide
  · rw [(list_relay (asciiB "OK\nb.txt") (asciiB "LIST\n")
      (asciiB "b.txt") (by decide) (by decide)).2 (by decide)]
    decide

/-- C5: when the dial to the backend fails, the command's whole trace is one
`ERR proxy error: ...` line sent directly on the client connection — nothing
is forwarded or relayed, no NAT entry is ever registered, nothing goes
through the NAT table — and the session goes on to process the following
commands unchanged. -/
theorem dial_fail_behavior (conn : Nat) (addr : String × Nat) (raw msg : List Nat)
    (pre post : List (List Nat × Outcome)) (hne : stripB raw ≠ []) :
    cmdTrace conn addr raw (Outcome.dialFail msg)
      = [Event.directSend conn (errB (asciiB "proxy error: " ++ msg) ++ [10])]
    ∧ (∀ port c h cp,
        Event.natRegister port c h cp ∉ cmdTrace conn addr raw (Outcome.dialFail msg))
    ∧ (∀ port payload,
        Event.natSend port payload ∉ cmdTrace conn addr raw (Outcome.dialFail msg))
    ∧ sessionBody conn addr (pre ++ (raw, Outcome.dialFail msg) :: post)
      = sessionBody conn addr pre
          ++ cmdTrace conn addr raw (Outcome.dialFail msg)
          ++ sessionBody conn addr post := by
  have h1 : cmdTrace conn addr raw (Outcome.dialFail msg)
      = [Event.directSend conn (errB (asciiB "proxy error: " ++ msg) ++ [10])] := by
    simp [cmdTrace, hne]
  refine ⟨h1, ?_, ?_, ?_⟩
  · intro port c h cp
    rw [h1]
    simp
  · intro port payload
    rw [h1]
    simp
  · rw [sessionBody_append,
      show sessionBody conn addr ((raw, Outcome.dialFail msg) :: post)
          = cmdTrace conn addr raw (Outcome.dialFail msg) ++ sessionBody conn addr post
        from rfl,
      List.append_assoc]

/-- Witness for C5 at a concrete failed dial. -/
theorem dial_fail_behavior_witness :
    cmdTrace 1 ("h", 2) (asciiB "LIST") (Outcome.dialFail (asciiB "boom"))
      = [Event.directSend 1 (errB (asciiB "proxy error: " ++ asciiB "boom") ++ [10])] :=
  (dial_fail_behavior 1 ("h", 2) (asciiB "LIST") (asciiB "boom") [] [] (by decide)).1

/-- C6: after a successful dial the very first action of the command is the
NAT registration of the dial port, strictly before anything is sent to the
backend; and the command's trace ends with the removal of that NAT entry,
both when the relay completes and when it is interrupted by an error (the
`finally` branch).  In the interrupted case too, a send to the backend can
only occur after the registration. -/
theorem register_then_remove (conn : Nat) (addr : String × Nat) (raw : List Nat)
    (port : Nat) (stream : List Nat) (k : Nat) (msg : List Nat)
    (hne : stripB raw ≠ []) :
    cmdTrace conn addr raw (Outcome.relayOk port stream)
      = Event.natRegister port conn addr.1 addr.2
          :: Event.toBackend (outboundOf (stripB raw))
          :: ((forwardResponse stream (outboundOf (stripB raw))).map (Event.natSend port)
              ++ [Event.natRemove port])
    ∧ (cmdTrace conn addr raw (Outcome.relayOk port stream)).getLast?
        = some (Event.natRemove port)
    ∧ (cmdTrace conn addr raw (Outcome.relayFault port stream k msg)).getLast?
        = some (Event.natRemove port)
    ∧ (Event.toBackend (outboundOf (stripB raw))
          ∈ cmdTrace conn addr raw (Outcome.relayFault port stream k msg) →
        Event.natRegister port conn addr.1 addr.2
          ∈ cmdTrace conn addr raw (Outcome.relayFault port stream k msg)) := by
  have hok : cmdTrace conn addr raw (Outcome.relayOk port stream)
      = okBody conn addr (stripB raw) port stream ++ [Event.natRemove port] := by
    simp [cmdTrace, hne]
  have hfault : cmdTrace conn addr raw (Outcome.relayFault port stream k msg)
      = (okBody conn addr (stripB raw) port stream).take k ++
          [Event.natSend port (sendLineBytes (errB (asciiB "proxy error: " ++ msg))),
           Event.natRemove port] := by
    simp [cmdTrace, hne]
  refine ⟨?_, ?_, ?_, ?_⟩
  · rw [hok]
    simp [okBody]
  · rw [hok, List.getLast?_concat]
  · rw [hfault, getLast?_pair]
  · intro hm
    rw [hfault] at hm ⊢
    rcases List.mem_append.mp hm with hm | hm
    · refine List.mem_append.mpr (Or.inl ?_)
      cases k with
      | zero => simp at hm
      | succ k' =>
        simp only [okBody, List.take_succ_cons]
        exact List.mem_cons_self _ _
    · simp at hm

/-- Witness for C6 at a concrete command. -/
theorem register_then_remove_witness :
    (cmdTrace 1 ("h", 2) (asciiB "LIST") (Outcome.relayOk 5 (asciiB "OK\nEND\n"))).getLast?
      = some (Event.natRemove 5)
    ∧ (cmdTrace 1 ("h", 2) (asciiB "LIST")
        (Outcome.relayFault 5 (asciiB "OK\nEND\n") 1 (asciiB "x"))).getLast?
      = some (Event.natRemove 5) := by
  have h := register_then_remove 1 ("h", 2) (asciiB "LIST") 5 (asciiB "OK\nEND\n") 1
    (asciiB "x") (by decide)
  exact ⟨h.2.1, h.2.2.1⟩

end Proxy
